import Mathlib

/-!
Verification of the voxel-editor renderer and its orbit camera.

The repository source under verification is `src/renderer.rs`. The camera
component (`CameraWrapper` in `camera.rs`) is referenced by the renderer but
its source file is not part of the sources provided; every definition below
whose doc comment starts with "Modelled from the spec:" is a faithful
translation of the natural-language specification of that missing component.
The mesh generation and the renderer's per-frame / per-event effect traces
are translated directly from `renderer.rs`.

Numeric conventions: the event-handling state (distance, yaw, pitch, pan
offset, cursor positions) is modelled over the rationals so that clamping
behaviour is exactly decidable; the projection constants and all matrix
arithmetic live over the reals.
-/

namespace VoxelEditor

/-! ## Camera input events (modelled from the spec) -/

/-- Modelled from the spec: the discriminated input event consumed by
`CameraWrapper.update` — pointer press/release/move (with the pan-modifier
state folded into the move event), scroll with a scalar delta, key presses,
and a catch-all for every other window event, which the camera ignores. -/
inductive Event where
  | pointerPressed (pos : ℚ × ℚ)
  | pointerReleased
  | pointerMoved (pos : ℚ × ℚ) (panHeld : Bool)
  | scroll (delta : ℤ)
  | keyPressed (key : ℕ)
  | other
deriving DecidableEq

/-- Modelled from the spec: the camera state. `target`, `distance`, `yaw`,
`pitch`, `pan_offset` and `last_cursor_position` are the orbit state mutated
by `update`; `fov_y`, `near`, `far` are fixed projection parameters. -/
structure CameraState where
  target : ℚ × ℚ × ℚ
  distance : ℚ
  yaw : ℚ
  pitch : ℚ
  pan_offset : ℚ × ℚ × ℚ
  last_cursor_position : Option (ℚ × ℚ)
  fov_y : ℝ
  near : ℝ
  far : ℝ

/-- Modelled from the spec: the orbit-drag sensitivity constant (a tunable
configuration value; the spec fixes no particular number). -/
def sensitivity : ℚ := 1 / 100

/-- Modelled from the spec: the pitch clamp bound, in radians, chosen
strictly inside (-90°, +90°) (1.55 rad < pi/2 rad = 90°). -/
def pitchBound : ℚ := 31 / 20

/-- Modelled from the spec: the positive minimum allowed camera distance. -/
def minDistance : ℚ := 1 / 10

/-- Modelled from the spec: the multiplicative zoom factor per scroll unit
(0.9x per unit of zoom-in, matching the spec's worked example). -/
def zoomFactor : ℚ := 9 / 10

/-- Modelled from the spec: clamp a pitch value into the invariant
interval. -/
def clampPitch (x : ℚ) : ℚ := max (-pitchBound) (min pitchBound x)

/-- Modelled from the spec: `CameraWrapper::new(initial_aspect)` — default
distance 5, yaw 0, slight downward pitch, zero pan, fov 45°, near 0.1,
far 100. The aspect argument is not stored (resizes need no camera
mutation). -/
noncomputable def CameraWrapper.new (_a : ℝ) : CameraState :=
  { target := (0, 0, 0)
    distance := 5
    yaw := 0
    pitch := 1 / 2
    pan_offset := (0, 0, 0)
    last_cursor_position := none
    fov_y := Real.pi / 4
    near := 1 / 10
    far := 100 }

/-- Modelled from the spec: `CameraWrapper::update(event)` — the input state
machine. Pointer press records the cursor and makes the drag active; a move
with no drag active is ignored; a move during a drag pans (scaled by
distance) when the pan modifier is held and otherwise orbits, clamping
pitch; release ends the drag; scroll rescales the distance, clamped to the
positive minimum; everything else is a no-op. -/
def CameraWrapper.update (st : CameraState) (e : Event) : CameraState :=
  match e with
  | .pointerPressed p => { st with last_cursor_position := some p }
  | .pointerReleased => { st with last_cursor_position := none }
  | .pointerMoved p panHeld =>
      match st.last_cursor_position with
      | none => st
      | some l =>
          let dx := p.1 - l.1
          let dy := p.2 - l.2
          if panHeld then
            { st with
                pan_offset :=
                  (st.pan_offset.1 + dx * st.distance * sensitivity,
                   st.pan_offset.2.1 + dy * st.distance * sensitivity,
                   st.pan_offset.2.2)
                last_cursor_position := some p }
          else
            { st with
                yaw := st.yaw + dx * sensitivity
                pitch := clampPitch (st.pitch - dy * sensitivity)
                last_cursor_position := some p }
  | .scroll d =>
      { st with distance := max minDistance (st.distance * zoomFactor ^ (-d)) }
  | .keyPressed _ => st
  | .other => st

/-- Apply a list of input events in order, oldest first. -/
def applyEvents (st : CameraState) (es : List Event) : CameraState :=
  es.foldl CameraWrapper.update st

/-! ## Mesh generation (translated from `generate_mesh_vertices`) -/

/-- A mesh vertex: homogeneous position and RGBA colour, as in the Rust
`Vertex` struct. -/
structure Vertex where
  pos : ℚ × ℚ × ℚ × ℚ
  col : ℚ × ℚ × ℚ × ℚ
deriving DecidableEq

def RED : ℚ × ℚ × ℚ × ℚ := (1, 0, 0, 1)
def GREEN : ℚ × ℚ × ℚ × ℚ := (0, 1, 0, 1)
def BLUE : ℚ × ℚ × ℚ × ℚ := (0, 0, 1, 1)

def vertex (p : ℚ × ℚ × ℚ) (c : ℚ × ℚ × ℚ × ℚ) : Vertex :=
  { pos := (p.1, p.2.1, p.2.2, 1), col := c }

def white_vertex (p : ℚ × ℚ × ℚ) : Vertex := vertex p (1, 1, 1, 1)

/-- The growing (vertex_data, index_data) pair of `generate_mesh_vertices`. -/
def MeshState := List Vertex × List ℕ

/-- One `vertex_data.push(v); index_data.push((vertex_data.len() - 1) as u16)`
pair; the `as u16` cast is the reduction modulo 2^16. -/
def meshPush (st : MeshState) (v : Vertex) : MeshState :=
  let vd := st.1 ++ [v]
  (vd, st.2 ++ [(vd.length - 1) % 65536])

/-- The body of the `for i in 1..(resolution + 1)` loop: four grid lines on
the bottom plane, four on the left plane and four on the back plane, twelve
vertex/index pushes in program order. -/
def meshLoopBody (step : ℚ) (st : MeshState) (i : ℕ) : MeshState :=
  let st := meshPush st (white_vertex (0, (i : ℚ) * step, 0))
  let st := meshPush st (white_vertex (1, (i : ℚ) * step, 0))
  let st := meshPush st (white_vertex ((i : ℚ) * step, 0, 0))
  let st := meshPush st (white_vertex ((i : ℚ) * step, 1, 0))
  let st := meshPush st (white_vertex (0, (i : ℚ) * step, 0))
  let st := meshPush st (white_vertex (0, (i : ℚ) * step, 1))
  let st := meshPush st (white_vertex (0, 0, (i : ℚ) * step))
  let st := meshPush st (white_vertex (0, 1, (i : ℚ) * step))
  let st := meshPush st (white_vertex ((i : ℚ) * step, 0, 0))
  let st := meshPush st (white_vertex ((i : ℚ) * step, 0, 1))
  let st := meshPush st (white_vertex (0, 0, (i : ℚ) * step))
  let st := meshPush st (white_vertex (1, 0, (i : ℚ) * step))
  st

/-- The six axis-line pushes that precede the loop (X axis red, Y axis
green, Z axis blue). -/
def meshAxes : MeshState :=
  let st : MeshState := ([], [])
  let st := meshPush st (vertex (0, 0, 0) RED)
  let st := meshPush st (vertex (1, 0, 0) RED)
  let st := meshPush st (vertex (0, 0, 0) GREEN)
  let st := meshPush st (vertex (0, 1, 0) GREEN)
  let st := meshPush st (vertex (0, 0, 0) BLUE)
  let st := meshPush st (vertex (0, 0, 1) BLUE)
  st

/-- `generate_mesh_vertices(resolution)` from `renderer.rs`: the axis lines
followed by the grid loop for i = 1..=resolution with step 1/resolution. -/
def generate_mesh_vertices (resolution : ℕ) : List Vertex × List ℕ :=
  (List.range' 1 resolution).foldl
    (meshLoopBody (1 / (resolution : ℚ))) meshAxes

/-! ## Matrix pipeline (modelled from the spec) -/

/-- A 3-vector over the reals. -/
structure Vec3 where
  x : ℝ
  y : ℝ
  z : ℝ

def Vec3.add (a b : Vec3) : Vec3 := ⟨a.x + b.x, a.y + b.y, a.z + b.z⟩

def Vec3.sub (a b : Vec3) : Vec3 := ⟨a.x - b.x, a.y - b.y, a.z - b.z⟩

def Vec3.smul (k : ℝ) (v : Vec3) : Vec3 := ⟨k * v.x, k * v.y, k * v.z⟩

def Vec3.dot (a b : Vec3) : ℝ := a.x * b.x + a.y * b.y + a.z * b.z

def Vec3.cross (a b : Vec3) : Vec3 :=
  ⟨a.y * b.z - a.z * b.y, a.z * b.x - a.x * b.z, a.x * b.y - a.y * b.x⟩

/-- Normalize a vector (real-number model of the floating-point
normalization; the zero vector maps to zero since division by zero is zero
over the reals). -/
noncomputable def Vec3.normalize (v : Vec3) : Vec3 :=
  Vec3.smul (1 / Real.sqrt (Vec3.dot v v)) v

def vec3OfRat (t : ℚ × ℚ × ℚ) : Vec3 := ⟨(t.1 : ℝ), (t.2.1 : ℝ), (t.2.2 : ℝ)⟩

/-- Modelled from the spec: the fixed world up axis (+Z, matching the grid
planes of the mesh). -/
def worldUp : Vec3 := ⟨0, 0, 1⟩

/-- Modelled from the spec: the unit direction vector for a given yaw
(rotation about the up axis) and pitch (elevation), standard
spherical-to-Cartesian conversion. -/
noncomputable def direction (yaw pitch : ℝ) : Vec3 :=
  ⟨Real.cos pitch * Real.cos yaw, Real.cos pitch * Real.sin yaw, Real.sin pitch⟩

/-- The orbited point: `target + pan_offset`. -/
def CameraState.centerV (st : CameraState) : Vec3 :=
  (vec3OfRat st.target).add (vec3OfRat st.pan_offset)

/-- Modelled from the spec: the eye position
`target + pan_offset + distance * direction(yaw, pitch)`. -/
noncomputable def CameraState.eyeV (st : CameraState) : Vec3 :=
  st.centerV.add (Vec3.smul (st.distance : ℝ) (direction (st.yaw : ℝ) (st.pitch : ℝ)))

/-- The normalized forward vector from eye to center. -/
noncomputable def CameraState.fwdV (st : CameraState) : Vec3 :=
  (st.centerV.sub st.eyeV).normalize

/-- The normalized side vector (forward cross world-up). -/
noncomputable def CameraState.sideV (st : CameraState) : Vec3 :=
  (st.fwdV.cross worldUp).normalize

/-- The re-orthogonalized camera up vector (side cross forward). -/
noncomputable def CameraState.upCamV (st : CameraState) : Vec3 :=
  st.sideV.cross st.fwdV

/-- Modelled from the spec: the look-at view matrix from `eye` toward
`center` with up axis `up`, built from the orthonormalized right/up/forward
frame. -/
noncomputable def lookAt (eye center up : Vec3) : Matrix (Fin 4) (Fin 4) ℝ :=
  let f := (center.sub eye).normalize
  let s := (f.cross up).normalize
  let u := s.cross f
  Matrix.of
    ![![s.x, s.y, s.z, -(s.dot eye)],
      ![u.x, u.y, u.z, -(u.dot eye)],
      ![-f.x, -f.y, -f.z, f.dot eye],
      ![0, 0, 0, 1]]

/-- Modelled from the spec: the perspective projection matrix built from
the vertical field of view, the aspect value and the near/far clip
planes. -/
noncomputable def perspective (fovy aspect n f : ℝ) : Matrix (Fin 4) (Fin 4) ℝ :=
  let t := 1 / Real.tan (fovy / 2)
  Matrix.of
    ![![t / aspect, 0, 0, 0],
      ![0, t, 0, 0],
      ![0, 0, (f + n) / (n - f), 2 * f * n / (n - f)],
      ![0, 0, -1, 0]]

/-- Modelled from the spec: `CameraWrapper::mvp_matrix(aspect)` — the
model-view-projection matrix, written out entrywise as the product of the
perspective projection and the look-at view matrix of the current orbit
state (the factored form is proved in the C7 theorem below). -/
noncomputable def CameraWrapper.mvp_matrix (st : CameraState) (aspect : ℝ) :
    Matrix (Fin 4) (Fin 4) ℝ :=
  let t := 1 / Real.tan (st.fov_y / 2)
  let c1 := (st.far + st.near) / (st.near - st.far)
  let c2 := 2 * st.far * st.near / (st.near - st.far)
  let s := st.sideV
  let u := st.upCamV
  let f := st.fwdV
  let eye := st.eyeV
  Matrix.of
    ![![t / aspect * s.x, t / aspect * s.y, t / aspect * s.z,
        t / aspect * (-(s.dot eye))],
      ![t * u.x, t * u.y, t * u.z, t * (-(u.dot eye))],
      ![c1 * (-f.x), c1 * (-f.y), c1 * (-f.z), c1 * (f.dot eye) + c2],
      ![f.x, f.y, f.z, -(f.dot eye)]]

/-- Modelled from the spec: one call to `mvp_matrix` returns the matrix and
leaves the camera state as it was (no side effects). -/
noncomputable def CameraWrapper.mvpCall (st : CameraState) (aspect : ℝ) :
    Matrix (Fin 4) (Fin 4) ℝ × CameraState :=
  (CameraWrapper.mvp_matrix st aspect, st)

/-! ## Renderer effect traces (translated from `renderer.rs`) -/

/-- The observable GPU-facing effects of the renderer: uniform-buffer
writes issued through the queue, and the render-pass commands recorded by
`Pipeline::draw`. -/
inductive Effect where
  | writeUniform (m : Matrix (Fin 4) (Fin 4) ℝ)
  | beginRenderPass (r g b a : ℚ)
  | setPipeline
  | setBindGroup (idx : ℕ)
  | setIndexBuffer
  | setVertexBuffer (slot : ℕ)
  | drawIndexed (lo hi : ℕ) (base : ℤ) (ilo ihi : ℕ)

def isWriteUniform : Effect → Bool
  | .writeUniform _ => true
  | _ => false

def isDrawIndexed : Effect → Bool
  | .drawIndexed _ _ _ _ _ => true
  | _ => false

/-- The `Renderer` struct: the camera, the current contents of the uniform
buffer, and the index count of the static mesh pipeline. -/
structure RendererState where
  camera : CameraState
  uniform : Matrix (Fin 4) (Fin 4) ℝ
  index_count : ℕ

/-- `Pipeline::draw`: set pipeline, bind group 0, index buffer, vertex
buffer 0, then one `draw_indexed(0..index_count, 0, 0..1)`. -/
def Pipeline.drawEffects (n : ℕ) : List Effect :=
  [.setPipeline, .setBindGroup 0, .setIndexBuffer, .setVertexBuffer 0,
   .drawIndexed 0 n 0 0 1]

/-- `Renderer::render`: begin one render pass clearing to (0, 0.8, 1, 1)
and record the mesh pipeline's draw commands. It issues no uniform write
and does not touch the camera. -/
def Renderer.renderEffects (r : RendererState) : List Effect :=
  .beginRenderPass 0 (4 / 5) 1 1 :: Pipeline.drawEffects r.index_count

/-- `Renderer::update`: forward the event to the camera, recompute the MVP
matrix at the swap-chain's aspect value (width / height) and write it into
the uniform buffer. -/
noncomputable def Renderer.updateStep (r : RendererState) (e : Event) (w h : ℕ) :
    RendererState × List Effect :=
  let c := CameraWrapper.update r.camera e
  let m := CameraWrapper.mvp_matrix c ((w : ℝ) / (h : ℝ))
  ({ r with camera := c, uniform := m }, [.writeUniform m])

/-- `Renderer::resize`: recompute the MVP matrix at the new aspect value
and write it into the uniform buffer; the camera is only read. -/
noncomputable def Renderer.resizeStep (r : RendererState) (w h : ℕ) :
    RendererState × List Effect :=
  let m := CameraWrapper.mvp_matrix r.camera ((w : ℝ) / (h : ℝ))
  ({ r with uniform := m }, [.writeUniform m])

/-- `Renderer::init`: a fresh camera, the uniform buffer seeded with its
MVP matrix, and the index count of the generated mesh. -/
noncomputable def Renderer.init (w h : ℕ) (res : ℕ) : RendererState :=
  { camera := CameraWrapper.new ((w : ℝ) / (h : ℝ))
    uniform := CameraWrapper.mvp_matrix (CameraWrapper.new ((w : ℝ) / (h : ℝ)))
      ((w : ℝ) / (h : ℝ))
    index_count := (generate_mesh_vertices res).2.length }

/-! ## Helper lemmas -/

/-- The pitch invariant predicate: pitch within the clamp interval. -/
def pitchInRange (st : CameraState) : Prop :=
  -pitchBound ≤ st.pitch ∧ st.pitch ≤ pitchBound

/-- The distance invariant predicate: distance at or above the minimum. -/
def distInRange (st : CameraState) : Prop := minDistance ≤ st.distance

theorem clampPitch_mem (x : ℚ) :
    -pitchBound ≤ clampPitch x ∧ clampPitch x ≤ pitchBound := by
  unfold clampPitch
  refine ⟨le_max_left _ _, max_le ?_ (min_le_left _ _)⟩
  norm_num [pitchBound]

theorem clampPitch_eq_self {x : ℚ} (h1 : -pitchBound ≤ x) (h2 : x ≤ pitchBound) :
    clampPitch x = x := by
  unfold clampPitch
  rw [min_eq_right h2, max_eq_right h1]

theorem pitchInRange_update (st : CameraState) (e : Event)
    (h : pitchInRange st) : pitchInRange (CameraWrapper.update st e) := by
  cases e with
  | pointerPressed p => exact h
  | pointerReleased => exact h
  | pointerMoved p panHeld =>
      unfold CameraWrapper.update
      cases hl : st.last_cursor_position with
      | none => exact h
      | some l =>
          cases panHeld with
          | false => simpa [pitchInRange] using clampPitch_mem _
          | true => exact h
  | scroll d => exact h
  | keyPressed k => exact h
  | other => exact h

theorem pitchInRange_applyEvents (es : List Event) :
    ∀ st : CameraState, pitchInRange st → pitchInRange (applyEvents st es) := by
  induction es with
  | nil => exact fun st h => h
  | cons e t ih =>
      intro st h
      exact ih _ (pitchInRange_update st e h)

theorem distInRange_update (st : CameraState) (e : Event)
    (h : distInRange st) : distInRange (CameraWrapper.update st e) := by
  cases e with
  | pointerPressed p => exact h
  | pointerReleased => exact h
  | pointerMoved p panHeld =>
      unfold CameraWrapper.update
      cases hl : st.last_cursor_position with
      | none => exact h
      | some l =>
          cases panHeld with
          | false => exact h
          | true => exact h
  | scroll d => exact le_max_left _ _
  | keyPressed k => exact h
  | other => exact h

theorem distInRange_applyEvents (es : List Event) :
    ∀ st : CameraState, distInRange st → distInRange (applyEvents st es) := by
  induction es with
  | nil => exact fun st h => h
  | cons e t ih =>
      intro st h
      exact ih _ (distInRange_update st e h)

theorem new_pitchInRange (a : ℝ) : pitchInRange (CameraWrapper.new a) := by
  constructor <;> norm_num [CameraWrapper.new, pitchBound]

theorem new_distInRange (a : ℝ) : distInRange (CameraWrapper.new a) := by
  norm_num [CameraWrapper.new, distInRange, minDistance]

/-- The mesh-building invariant: after `n` pushes the vertex list has
length `n` and the index list is `[0 % 2^16, ..., (n-1) % 2^16]`. -/
def meshInv (n : ℕ) (st : MeshState) : Prop :=
  st.1.length = n ∧ st.2 = (List.range n).map (fun k => k % 65536)

theorem meshPush_inv {n : ℕ} {st : MeshState} (v : Vertex)
    (h : meshInv n st) : meshInv (n + 1) (meshPush st v) := by
  obtain ⟨h1, h2⟩ := h
  constructor
  · simp [meshPush, h1]
  · simp [meshPush, h2, h1, List.range_succ]

theorem meshLoopBody_inv {n : ℕ} {st : MeshState} (step : ℚ) (i : ℕ)
    (h : meshInv n st) : meshInv (n + 12) (meshLoopBody step st i) :=
  meshPush_inv _ (meshPush_inv _ (meshPush_inv _ (meshPush_inv _
    (meshPush_inv _ (meshPush_inv _ (meshPush_inv _ (meshPush_inv _
      (meshPush_inv _ (meshPush_inv _ (meshPush_inv _ (meshPush_inv _ h)))))))))))

theorem meshFold_inv (step : ℚ) (l : List ℕ) :
    ∀ (n : ℕ) (st : MeshState), meshInv n st →
      meshInv (n + 12 * l.length) (l.foldl (meshLoopBody step) st) := by
  induction l with
  | nil => intro n st h; simpa using h
  | cons i t ih =>
      intro n st h
      have e : n + 12 * (i :: t).length = n + 12 + 12 * t.length := by
        simp [List.length_cons]; ring
      rw [e, List.foldl_cons]
      exact ih _ _ (meshLoopBody_inv step i h)

theorem meshAxes_inv : meshInv 6 meshAxes := by
  constructor <;> decide

theorem map_mod_range (n m : ℕ) (h : n ≤ m) :
    (List.range n).map (fun k => k % m) = List.range n := by
  induction n with
  | zero => rfl
  | succ t ih =>
      rw [List.range_succ, List.map_append,
        ih (le_trans (Nat.le_succ t) h)]
      simp [Nat.mod_eq_of_lt (lt_of_lt_of_le (Nat.lt_succ_self t) h)]

theorem generate_mesh_vertices_inv (r : ℕ) :
    meshInv (6 + 12 * r) (generate_mesh_vertices r) := by
  have h := meshFold_inv (1 / (r : ℚ)) (List.range' 1 r) 6 meshAxes meshAxes_inv
  simpa [generate_mesh_vertices] using h

/-! ## Claim theorems -/

/-- C2: `Renderer::resize` leaves the camera state untouched; it only
recomputes the MVP matrix at the new aspect value and rewrites the uniform
buffer. -/
theorem resize_preserves_camera :
    ∀ (r : RendererState) (w h : ℕ),
      (Renderer.resizeStep r w h).1.camera = r.camera ∧
      (Renderer.resizeStep r w h).2 =
        [.writeUniform (CameraWrapper.mvp_matrix r.camera ((w : ℝ) / (h : ℝ)))] :=
  fun _ _ _ => ⟨rfl, rfl⟩

/-- C5: a pointer-moved event arriving while no drag is active (no recorded
cursor position) leaves yaw, pitch and pan offset unchanged. -/
theorem pointer_moved_without_drag_noop :
    ∀ (st : CameraState) (p : ℚ × ℚ) (m : Bool),
      st.last_cursor_position = none →
        (CameraWrapper.update st (.pointerMoved p m)).yaw = st.yaw ∧
        (CameraWrapper.update st (.pointerMoved p m)).pitch = st.pitch ∧
        (CameraWrapper.update st (.pointerMoved p m)).pan_offset = st.pan_offset := by
  intro st p m h
  simp [CameraWrapper.update, h]

/-- C5 witness: a concrete drag-inactive state is unchanged by a move. -/
theorem pointer_moved_without_drag_noop_witness :
    ({ target := (0, 0, 0), distance := 5, yaw := 2, pitch := 1, pan_offset := (3, 4, 0),
       last_cursor_position := none, fov_y := 1, near := 1 / 10, far := 100 } :
        CameraState).last_cursor_position = none ∧
    (CameraWrapper.update
      { target := (0, 0, 0), distance := 5, yaw := 2, pitch := 1, pan_offset := (3, 4, 0),
        last_cursor_position := none, fov_y := 1, near := 1 / 10, far := 100 }
      (.pointerMoved (7, 8) false)).yaw = 2 :=
  ⟨rfl,
    (pointer_moved_without_drag_noop
      { target := (0, 0, 0), distance := 5, yaw := 2, pitch := 1, pan_offset := (3, 4, 0),
        last_cursor_position := none, fov_y := 1, near := 1 / 10, far := 100 }
      (7, 8) false rfl).1⟩

/-- C6: `mvp_matrix` is a pure function — the call returns the state
unchanged, and calling again on the returned state with the same aspect
value gives the identical matrix. -/
theorem mvp_matrix_pure :
    ∀ (st : CameraState) (a : ℝ),
      (CameraWrapper.mvpCall st a).2 = st ∧
      (CameraWrapper.mvpCall (CameraWrapper.mvpCall st a).2 a).1 =
        (CameraWrapper.mvpCall st a).1 ∧
      (CameraWrapper.mvpCall st a).1 = CameraWrapper.mvp_matrix st a :=
  fun _ _ => ⟨rfl, rfl, rfl⟩

/-- C3: in every camera state reachable from construction, pitch stays in
the clamp interval, whose bound is strictly below 90° (pi/2 radians); an
orbit drag whose raw delta would push pitch past the bound leaves it
exactly at the bound. -/
theorem pitch_clamp_invariant :
    ((pitchBound : ℝ) < Real.pi / 2) ∧
    (∀ (a : ℝ) (es : List Event),
      -pitchBound ≤ (applyEvents (CameraWrapper.new a) es).pitch ∧
      (applyEvents (CameraWrapper.new a) es).pitch ≤ pitchBound) ∧
    (∀ (st : CameraState) (p l : ℚ × ℚ),
      st.last_cursor_position = some l →
      pitchBound ≤ st.pitch - (p.2 - l.2) * sensitivity →
      (CameraWrapper.update st (.pointerMoved p false)).pitch = pitchBound) ∧
    (∀ (st : CameraState) (p l : ℚ × ℚ),
      st.last_cursor_position = some l →
      st.pitch - (p.2 - l.2) * sensitivity ≤ -pitchBound →
      (CameraWrapper.update st (.pointerMoved p false)).pitch = -pitchBound) := by
  refine ⟨?_, ?_, ?_, ?_⟩
  · have h := Real.pi_gt_d2
    norm_num [pitchBound]
    linarith
  · intro a es
    exact pitchInRange_applyEvents es _ (new_pitchInRange a)
  · intro st p l hl h
    simp only [CameraWrapper.update, hl]
    unfold clampPitch
    rw [min_eq_left h, max_eq_right (by norm_num [pitchBound])]
    simp
  · intro st p l hl h
    simp only [CameraWrapper.update, hl]
    unfold clampPitch
    rw [max_eq_left (le_trans (min_le_right _ _) h)]
    simp

/-- C3 witness: from a concrete drag-active state a huge downward-delta
drag lands pitch exactly on the upper clamp bound. -/
theorem pitch_clamp_invariant_witness :
    ({ target := (0, 0, 0), distance := 5, yaw := 0, pitch := 0, pan_offset := (0, 0, 0),
       last_cursor_position := some (0, 0), fov_y := 1, near := 1 / 10, far := 100 } :
        CameraState).last_cursor_position = some (0, 0) ∧
    pitchBound ≤ (0 : ℚ) - ((-1000 : ℚ) - 0) * sensitivity ∧
    (CameraWrapper.update
      { target := (0, 0, 0), distance := 5, yaw := 0, pitch := 0, pan_offset := (0, 0, 0),
        last_cursor_position := some (0, 0), fov_y := 1, near := 1 / 10, far := 100 }
      (.pointerMoved (0, -1000) false)).pitch = pitchBound :=
  ⟨rfl, by norm_num [pitchBound, sensitivity],
    pitch_clamp_invariant.2.2.1
      { target := (0, 0, 0), distance := 5, yaw := 0, pitch := 0, pan_offset := (0, 0, 0),
        last_cursor_position := some (0, 0), fov_y := 1, near := 1 / 10, far := 100 }
      (0, -1000) (0, 0) rfl (by norm_num [pitchBound, sensitivity])⟩

/-- C4: the minimum distance is strictly positive, every reachable camera
state keeps distance at or above it (so never zero or negative), and a
scroll whose raw rescaled distance falls at or below the minimum leaves
distance exactly at the minimum. -/
theorem distance_clamp_invariant :
    (0 < minDistance) ∧
    (∀ (a : ℝ) (es : List Event),
      minDistance ≤ (applyEvents (CameraWrapper.new a) es).distance) ∧
    (∀ (st : CameraState) (d : ℤ),
      st.distance * zoomFactor ^ (-d) ≤ minDistance →
      (CameraWrapper.update st (.scroll d)).distance = minDistance) := by
  refine ⟨by norm_num [minDistance], ?_, ?_⟩
  · intro a es
    exact distInRange_applyEvents es _ (new_distInRange a)
  · intro st d h
    simp only [CameraWrapper.update]
    exact max_eq_left h

/-- C4 witness: zooming in from a concrete state already at the minimum
distance leaves the distance exactly at the minimum. -/
theorem distance_clamp_invariant_witness :
    ((1 : ℚ) / 10) * zoomFactor ^ (-(-1 : ℤ)) ≤ minDistance ∧
    (CameraWrapper.update
      { target := (0, 0, 0), distance := 1 / 10, yaw := 0, pitch := 0,
        pan_offset := (0, 0, 0), last_cursor_position := none,
        fov_y := 1, near := 1 / 10, far := 100 }
      (.scroll (-1))).distance = minDistance :=
  ⟨by norm_num [zoomFactor, minDistance],
    distance_clamp_invariant.2.2
      { target := (0, 0, 0), distance := 1 / 10, yaw := 0, pitch := 0,
        pan_offset := (0, 0, 0), last_cursor_position := none,
        fov_y := 1, near := 1 / 10, far := 100 }
      (-1) (by norm_num [zoomFactor, minDistance])⟩

/-- C9: from any reachable camera state, pressing at (100, 100) and moving
to (110, 100) in orbit mode increases yaw by exactly 10 * sensitivity and
leaves pitch unchanged. -/
theorem horizontal_drag_isolates_yaw :
    ∀ (a : ℝ) (es : List Event),
      (CameraWrapper.update
        (CameraWrapper.update (applyEvents (CameraWrapper.new a) es)
          (.pointerPressed (100, 100)))
        (.pointerMoved (110, 100) false)).yaw =
          (applyEvents (CameraWrapper.new a) es).yaw + 10 * sensitivity ∧
      (CameraWrapper.update
        (CameraWrapper.update (applyEvents (CameraWrapper.new a) es)
          (.pointerPressed (100, 100)))
        (.pointerMoved (110, 100) false)).pitch =
          (applyEvents (CameraWrapper.new a) es).pitch := by
  intro a es
  have hr := pitchInRange_applyEvents es _ (new_pitchInRange a)
  constructor
  · simp [CameraWrapper.update]
    norm_num
  · simp [CameraWrapper.update]
    exact clampPitch_eq_self hr.1 hr.2

/-- C10 counterexample: at resolution 1 the generated vertex list has 18
entries, not 6 + 20 * 1 = 26 — the grid loop pushes 12 vertices per
iteration, not 20. -/
theorem generate_mesh_vertices_count_cex :
    ¬ (generate_mesh_vertices 1).1.length = 6 + 20 * 1 := by
  decide

/-- C10 (amended): for every resolution with 6 + 12 * r below 2^16, the
vertex and index lists both have length 6 + 12 * r, the index list is
exactly the identity sequence, and every index refers to an existing
vertex. -/
theorem generate_mesh_vertices_wellformed :
    ∀ r : ℕ, 6 + 12 * r ≤ 65536 →
      (generate_mesh_vertices r).1.length = 6 + 12 * r ∧
      (generate_mesh_vertices r).2 = List.range (6 + 12 * r) ∧
      ∀ i ∈ (generate_mesh_vertices r).2, i < (generate_mesh_vertices r).1.length := by
  intro r hr
  obtain ⟨h1, h2⟩ := generate_mesh_vertices_inv r
  rw [map_mod_range _ _ hr] at h2
  refine ⟨h1, h2, ?_⟩
  intro i hi
  rw [h2] at hi
  rw [h1]
  exact List.mem_range.mp hi

/-- C10 witness: at the default resolution 16 the index list is exactly
the range 0..197. -/
theorem generate_mesh_vertices_wellformed_witness :
    6 + 12 * 16 ≤ 65536 ∧
    (generate_mesh_vertices 16).2 = List.range (6 + 12 * 16) :=
  ⟨by norm_num, (generate_mesh_vertices_wellformed 16 (by norm_num)).2.1⟩

/-- C1 counterexample: the per-frame render trace of a concretely
initialized renderer contains no uniform-buffer write at all, so render
does not upload a recomputed camera matrix before its draw call. -/
theorem render_no_uniform_upload_cex :
    ¬ ∃ e ∈ Renderer.renderEffects (Renderer.init 800 600 16),
        isWriteUniform e = true := by
  simp [Renderer.renderEffects, Pipeline.drawEffects, isWriteUniform]

/-- C1 (amended): every invocation of `Renderer::render` issues exactly one
indexed draw call and no uniform write; the MVP matrix is recomputed and
uploaded by `Renderer::update` (after forwarding the event to the camera)
and by `Renderer::resize`, not by `render`. -/
theorem render_single_draw_upload_elsewhere :
    ∀ (r : RendererState) (e : Event) (w h : ℕ),
      (Renderer.renderEffects r).countP isDrawIndexed = 1 ∧
      (Renderer.renderEffects r).countP isWriteUniform = 0 ∧
      (Renderer.updateStep r e w h).2 =
        [.writeUniform (CameraWrapper.mvp_matrix
          (CameraWrapper.update r.camera e) ((w : ℝ) / (h : ℝ)))] ∧
      (Renderer.resizeStep r w h).2 =
        [.writeUniform (CameraWrapper.mvp_matrix r.camera ((w : ℝ) / (h : ℝ)))] :=
  fun _ _ _ _ => ⟨rfl, rfl, rfl, rfl⟩

/-- C7: the MVP matrix factors as the perspective projection times the
look-at view matrix, where the eye sits at
`target + pan_offset + distance * direction(yaw, pitch)` (standard
spherical-to-Cartesian conversion with the fixed world up axis) and the
view looks from the eye toward `target + pan_offset`. -/
theorem mvp_matrix_eq_proj_mul_view :
    ∀ (st : CameraState) (a : ℝ),
      CameraWrapper.mvp_matrix st a =
        perspective st.fov_y a st.near st.far *
          lookAt
            (((vec3OfRat st.target).add (vec3OfRat st.pan_offset)).add
              (Vec3.smul (st.distance : ℝ) (direction (st.yaw : ℝ) (st.pitch : ℝ))))
            ((vec3OfRat st.target).add (vec3OfRat st.pan_offset))
            worldUp := by
  intro st a
  ext i j
  fin_cases i <;> fin_cases j <;>
    simp [CameraWrapper.mvp_matrix, perspective, lookAt, CameraState.eyeV,
      CameraState.fwdV, CameraState.sideV, CameraState.upCamV, CameraState.centerV,
      Matrix.mul_apply, Fin.sum_univ_four]

/-! ## Non-degeneracy of the MVP matrix -/

theorem sub_center_eye (st : CameraState) :
    st.centerV.sub st.eyeV =
      Vec3.smul (-(st.distance : ℝ)) (direction (st.yaw : ℝ) (st.pitch : ℝ)) := by
  simp only [CameraState.eyeV, CameraState.centerV, Vec3.sub, Vec3.add, Vec3.smul,
    Vec3.mk.injEq]
  refine ⟨by ring, by ring, by ring⟩

theorem dot_center_eye (st : CameraState) :
    Vec3.dot (st.centerV.sub st.eyeV) (st.centerV.sub st.eyeV) =
      (st.distance : ℝ) ^ 2 := by
  rw [sub_center_eye]
  simp only [Vec3.dot, Vec3.smul, direction]
  linear_combination
    ((st.distance : ℝ) ^ 2 * Real.cos (st.pitch : ℝ) ^ 2) *
        Real.sin_sq_add_cos_sq (st.yaw : ℝ) +
      (st.distance : ℝ) ^ 2 * Real.sin_sq_add_cos_sq (st.pitch : ℝ)

theorem fwdV_explicit (st : CameraState) (hd : 0 < (st.distance : ℝ)) :
    st.fwdV =
      ⟨-(Real.cos (st.pitch : ℝ) * Real.cos (st.yaw : ℝ)),
       -(Real.cos (st.pitch : ℝ) * Real.sin (st.yaw : ℝ)),
       -Real.sin (st.pitch : ℝ)⟩ := by
  unfold CameraState.fwdV Vec3.normalize
  rw [dot_center_eye, sub_center_eye, Real.sqrt_sq hd.le]
  simp only [Vec3.smul, direction, Vec3.mk.injEq]
  have hne : (st.distance : ℝ) ≠ 0 := hd.ne'
  refine ⟨?_, ?_, ?_⟩ <;> field_simp <;> ring

theorem cross_fwd_up (st : CameraState) (hd : 0 < (st.distance : ℝ)) :
    st.fwdV.cross worldUp =
      ⟨-(Real.cos (st.pitch : ℝ) * Real.sin (st.yaw : ℝ)),
       Real.cos (st.pitch : ℝ) * Real.cos (st.yaw : ℝ), 0⟩ := by
  rw [fwdV_explicit st hd]
  simp only [Vec3.cross, worldUp, Vec3.mk.injEq]
  refine ⟨by ring, by ring, by ring⟩

theorem dot_cross_fwd_up (st : CameraState) (hd : 0 < (st.distance : ℝ)) :
    Vec3.dot (st.fwdV.cross worldUp) (st.fwdV.cross worldUp) =
      Real.cos (st.pitch : ℝ) ^ 2 := by
  rw [cross_fwd_up st hd]
  simp only [Vec3.dot]
  linear_combination Real.cos (st.pitch : ℝ) ^ 2 * Real.sin_sq_add_cos_sq (st.yaw : ℝ)

theorem sideV_explicit (st : CameraState) (hd : 0 < (st.distance : ℝ))
    (hcp : 0 < Real.cos (st.pitch : ℝ)) :
    st.sideV = ⟨-Real.sin (st.yaw : ℝ), Real.cos (st.yaw : ℝ), 0⟩ := by
  unfold CameraState.sideV Vec3.normalize
  rw [dot_cross_fwd_up st hd, cross_fwd_up st hd, Real.sqrt_sq hcp.le]
  simp only [Vec3.smul, Vec3.mk.injEq]
  have hne : Real.cos (st.pitch : ℝ) ≠ 0 := hcp.ne'
  refine ⟨?_, ?_, ?_⟩
  · field_simp
    ring
  · field_simp
  · field_simp

theorem upCamV_explicit (st : CameraState) (hd : 0 < (st.distance : ℝ))
    (hcp : 0 < Real.cos (st.pitch : ℝ)) :
    st.upCamV =
      ⟨-(Real.sin (st.pitch : ℝ) * Real.cos (st.yaw : ℝ)),
       -(Real.sin (st.pitch : ℝ) * Real.sin (st.yaw : ℝ)),
       Real.cos (st.pitch : ℝ)⟩ := by
  unfold CameraState.upCamV
  rw [sideV_explicit st hd hcp, fwdV_explicit st hd]
  simp only [Vec3.cross, Vec3.mk.injEq]
  refine ⟨by ring, by ring, ?_⟩
  linear_combination Real.cos (st.pitch : ℝ) * Real.sin_sq_add_cos_sq (st.yaw : ℝ)

theorem mvp_matrix_factored (st : CameraState) (a : ℝ) :
    CameraWrapper.mvp_matrix st a =
      perspective st.fov_y a st.near st.far *
        lookAt st.eyeV st.centerV worldUp := by
  ext i j
  fin_cases i <;> fin_cases j <;>
    simp [CameraWrapper.mvp_matrix, perspective, lookAt, CameraState.fwdV,
      CameraState.sideV, CameraState.upCamV, Matrix.mul_apply, Fin.sum_univ_four]

theorem lookAt_eq_frame (st : CameraState) :
    lookAt st.eyeV st.centerV worldUp =
      Matrix.of
        ![![st.sideV.x, st.sideV.y, st.sideV.z, -(st.sideV.dot st.eyeV)],
          ![st.upCamV.x, st.upCamV.y, st.upCamV.z, -(st.upCamV.dot st.eyeV)],
          ![-st.fwdV.x, -st.fwdV.y, -st.fwdV.z, st.fwdV.dot st.eyeV],
          ![0, 0, 0, 1]] := rfl

theorem det_perspective (fovy a n f : ℝ) :
    (perspective fovy a n f).det =
      (1 / Real.tan (fovy / 2)) ^ 2 * (2 * f * n / (n - f)) / a := by
  simp [perspective, Matrix.det_succ_row_zero, Fin.sum_univ_succ]
  ring

theorem det_lookAt_orbit (st : CameraState) (hd : 0 < (st.distance : ℝ))
    (hcp : 0 < Real.cos (st.pitch : ℝ)) :
    (lookAt st.eyeV st.centerV worldUp).det = 1 := by
  rw [lookAt_eq_frame, sideV_explicit st hd hcp, upCamV_explicit st hd hcp,
    fwdV_explicit st hd]
  simp [Vec3.dot, Matrix.det_succ_row_zero, Fin.sum_univ_succ, Fin.succAbove,
    Fin.lt_def]
  linear_combination
    (Real.sin (st.pitch : ℝ) ^ 2 + Real.cos (st.pitch : ℝ) ^ 2) *
        Real.sin_sq_add_cos_sq (st.yaw : ℝ) +
      Real.sin_sq_add_cos_sq (st.pitch : ℝ)

/-- C8: for every camera state with positive distance, pitch inside the
clamp interval and projection constants in the ranges fixed at
construction, and for every positive aspect value, the real-valued
`mvp_matrix` is non-degenerate: the tangent in the projection and the
squared norms feeding both normalizations are non-zero (the real-model
analogue of producing no NaN or infinite entries), and the returned 4x4
matrix has non-zero determinant. -/
theorem mvp_matrix_nondegenerate :
    ∀ (st : CameraState) (a : ℝ),
      0 < st.distance →
      -pitchBound ≤ st.pitch → st.pitch ≤ pitchBound →
      0 < st.fov_y → st.fov_y < Real.pi →
      0 < st.near → st.near < st.far →
      0 < a →
      Real.tan (st.fov_y / 2) ≠ 0 ∧
      0 < Vec3.dot (st.centerV.sub st.eyeV) (st.centerV.sub st.eyeV) ∧
      0 < Vec3.dot (st.fwdV.cross worldUp) (st.fwdV.cross worldUp) ∧
      (CameraWrapper.mvp_matrix st a).det ≠ 0 := by
  intro st a hdq hp1 hp2 hf1 hf2 hn1 hnf ha
  have hd : 0 < (st.distance : ℝ) := by exact_mod_cast hdq
  have hp1' : ((-pitchBound : ℚ) : ℝ) ≤ (st.pitch : ℝ) := by exact_mod_cast hp1
  have hp2' : (st.pitch : ℝ) ≤ ((pitchBound : ℚ) : ℝ) := by exact_mod_cast hp2
  have hbval : ((pitchBound : ℚ) : ℝ) = 31 / 20 := by norm_num [pitchBound]
  have hbneg : ((-pitchBound : ℚ) : ℝ) = -(31 / 20) := by norm_num [pitchBound]
  have hpi := Real.pi_gt_d2
  have hcp : 0 < Real.cos (st.pitch : ℝ) := by
    apply Real.cos_pos_of_mem_Ioo
    constructor
    · rw [hbneg] at hp1'
      linarith
    · rw [hbval] at hp2'
      linarith
  have htan : 0 < Real.tan (st.fov_y / 2) :=
    Real.tan_pos_of_pos_of_lt_pi_div_two (by linarith) (by linarith)
  refine ⟨htan.ne', ?_, ?_, ?_⟩
  · rw [dot_center_eye]
    exact pow_pos hd 2
  · rw [dot_cross_fwd_up st hd]
    exact pow_pos hcp 2
  · rw [mvp_matrix_factored, Matrix.det_mul, det_perspective,
      det_lookAt_orbit st hd hcp, mul_one]
    apply div_ne_zero _ ha.ne'
    apply mul_ne_zero
    · exact pow_ne_zero _ (one_div_ne_zero htan.ne')
    · have hf0 : 0 < st.far := lt_trans hn1 hnf
      exact div_ne_zero (by positivity) (sub_ne_zero.mpr (ne_of_lt hnf))

/-- C8 witness: the MVP matrix of a concrete valid camera state at aspect
value 1 has non-zero determinant. -/
theorem mvp_matrix_nondegenerate_witness :
    (0 : ℚ) < 5 ∧ (0 : ℝ) < 1 ∧
    (CameraWrapper.mvp_matrix
      { target := (0, 0, 0), distance := 5, yaw := 0, pitch := 0,
        pan_offset := (0, 0, 0), last_cursor_position := none,
        fov_y := 1, near := 1 / 10, far := 100 } 1).det ≠ 0 := by
  refine ⟨by norm_num, by norm_num, ?_⟩
  exact (mvp_matrix_nondegenerate
    { target := (0, 0, 0), distance := 5, yaw := 0, pitch := 0,
      pan_offset := (0, 0, 0), last_cursor_position := none,
      fov_y := 1, near := 1 / 10, far := 100 } 1
    (show (0 : ℚ) < 5 by norm_num)
    (show -pitchBound ≤ (0 : ℚ) by norm_num [pitchBound])
    (show (0 : ℚ) ≤ pitchBound by norm_num [pitchBound])
    (show (0 : ℝ) < 1 by norm_num)
    (show (1 : ℝ) < Real.pi by linarith [Real.pi_gt_three])
    (show (0 : ℝ) < 1 / 10 by norm_num)
    (show (1 / 10 : ℝ) < 100 by norm_num)
    (show (0 : ℝ) < 1 by norm_num)).2.2.2

end VoxelEditor
